import Mathlib

/-!
Verification of the XynClient core (bridge.py) against its specification.

This file gives a shallow embedding of the protocol and transfer engine of
`bridge.py`: the `Partition` data model, the PIT parsers (`_parse_text`,
`parse_heuristic`), partition-identifier resolution
(`guess_partition_identifier`, `get_partition_by_name`), the ODIN session
handshake (`establish_session`), the raw-protocol read/write/erase transfer
paths, and `disconnect`.

Modelling conventions:
* byte strings are `List Nat` (each entry a byte value `< 256`);
* machine integers are `Nat` (sizes and identifiers in the source are
  non-negative Python ints; the only fixed-width encoding, `struct.pack`,
  is modelled explicitly by `le32`);
* the USB bulk transport is a sequence of abstract receive events
  (`RecvEvent`): a well-framed packet, a receive timeout, or another
  transport error.  The source distinguishes a timeout from other errors by
  inspecting the exception text; we model the distinction directly;
* subprocess invocations of the external heimdall tool are abstracted to an
  availability flag and an exit-status flag (`ToolEnv`), the only facts the
  source uses;
* Python exceptions become an `Err` sum type; each constructor corresponds
  to one raise site of the source;
* observable side effects (tool invocations, USB writes, sleeps) are
  collected into an `Action` trace so that statements such as "no
  raw-protocol traffic happens" can be expressed.
-/

namespace XynClient

abbrev Bytes := List Nat

/-- ODIN protocol command codes, from the `OdinCommand` enum of bridge.py. -/
def SESSION_START : Nat := 0x65
def SESSION_END : Nat := 0x66
def FILE_TRANSFER : Nat := 0x67
def FILE_COMPLETE : Nat := 0x68
def GET_PIT : Nat := 0x69
def PARTITION_INFO : Nat := 0x70
def ERASE_PARTITION : Nat := 0x71
def REBOOT : Nat := 0x72

/-- Bytes of the 4-byte host handshake magic `b"ODIN"`. -/
def odinMagic : Bytes := [0x4F, 0x44, 0x49, 0x4E]

/-- Bytes of the 4-byte expected reply magic `b"LOKE"`. -/
def lokeMagic : Bytes := [0x4C, 0x4F, 0x4B, 0x45]

/-- Little-endian 4-byte encoding, mirroring Python `struct.pack("<I", n)`. -/
def le32 (n : Nat) : Bytes :=
  [n % 256, n / 256 % 256, n / 65536 % 256, n / 16777216 % 256]

/-- Packet framing of `_send_packet`: `struct.pack("<BI", command, len(data)) + data`. -/
def encodePacket (command : Nat) (data : Bytes) : Bytes :=
  command % 256 :: le32 data.length ++ data

-- -------------------- Partition data model --------------------

/-- ASCII lowercase conversion of one character, the effect of Python
`str.lower` on the ASCII strings this program handles. -/
def charLower (c : Char) : Char :=
  if 65 ≤ c.toNat ∧ c.toNat ≤ 90 then Char.ofNat (c.toNat + 32) else c

/-- ASCII lowercase conversion of a string (Python `str.lower` restricted
to ASCII, which covers every name the program manipulates). -/
def strLower (s : String) : String :=
  String.mk (s.data.map charLower)

/-- The `Partition` record of bridge.py. -/
structure Partition where
  name : String
  start : Option Nat
  length : Option Nat
  id : Option Nat
  filename : Option String
  deriving DecidableEq, Repr

/-- The `Partition.__init__` constructor: the name is lowercased
unconditionally (`self.name = name.lower()`); all other fields are stored
as passed.  Python `str.lower` agrees with `String.toLower` on the ASCII
names this program handles. -/
def mkPartition (name : String) (start : Option Nat := none)
    (length : Option Nat := none) (id : Option Nat := none)
    (filename : Option String := none) : Partition :=
  { name := strLower name, start := start, length := length, id := id,
    filename := filename }

/-- Lookup in the catalog dict `{p.name: p for p in parts}`: a Python dict
comprehension lets later entries overwrite earlier ones, so lookup returns
the last partition carrying the key. -/
def dictGet (parts : List Partition) (key : String) : Option Partition :=
  parts.reverse.find? (fun p => p.name = key)

/-- The `PartitionManager.get_partition_by_name` lookup: the argument is
lowercased before the dict lookup.  (In the source an empty catalog first
triggers `detect_partition_layout`; we model the lookup against the
already-detected catalog.) -/
def getPartitionByName (parts : List Partition) (name : String) :
    Option Partition :=
  dictGet parts (strLower name)

/-- The static name-to-id table `common_map` of
`PartitionManager.guess_partition_identifier`. -/
def commonMap : List (String × Nat) :=
  [("boot", 1), ("recovery", 2), ("system", 3), ("userdata", 4),
   ("cache", 5), ("modem", 6), ("radio", 6), ("efs", 7), ("param", 8),
   ("dtb", 9), ("dtbo", 10), ("vbmeta", 11), ("misc", 12)]

/-- Sentinel identifier for unknown partitions, `0xFFFFFFFF`. -/
def SENTINEL_ID : Nat := 0xFFFFFFFF

/-- `PartitionManager.guess_partition_identifier`: the catalog id when the
partition is known and carries one, else the static table entry, else the
sentinel. -/
def guessPartitionIdentifier (parts : List Partition) (name : String) : Nat :=
  match getPartitionByName parts name with
  | some p =>
    match p.id with
    | some i => i
    | none => ((commonMap.lookup (strLower name)).getD SENTINEL_ID)
  | none => ((commonMap.lookup (strLower name)).getD SENTINEL_ID)

/-- The id recorded for `name` in the catalog, if any: the explicit id of
the partition the lookup resolves to. -/
def catalogId (parts : List Partition) (name : String) : Option Nat :=
  match getPartitionByName parts name with
  | some p => p.id
  | none => none

-- -------------------- PitParser._parse_text --------------------

/-- Character class of the regex `[A-Za-z0-9_\-]`. -/
def isTokenChar (c : Char) : Bool :=
  c.isUpper || c.isLower || c.isDigit || c == '_' || c == '-'

/-- Character class of the regex `\s` (Python whitespace). -/
def isSpaceChar (c : Char) : Bool :=
  c == ' ' || c == '\t' || c == '\n' || c == '\r' || c == '\x0B' || c == '\x0C'

/-- Python `str.strip`: remove leading and trailing whitespace. -/
def stripChars (l : List Char) : List Char :=
  ((l.dropWhile isSpaceChar).reverse.dropWhile isSpaceChar).reverse

/-- Substring containment, the Python `pat in s` test on strings. -/
def containsSub (pat : List Char) : List Char → Bool
  | [] => pat.isEmpty
  | c :: rest => pat.isPrefixOf (c :: rest) || containsSub pat rest

/-- Hexadecimal digit class of the regex `[0-9A-Fa-f]`. -/
def isHexDigitChar (c : Char) : Bool :=
  c.isDigit || decide ('a' ≤ c ∧ c ≤ 'f') || decide ('A' ≤ c ∧ c ≤ 'F')

/-- Numeric value of a hexadecimal digit character. -/
def hexVal (c : Char) : Nat :=
  if c.isDigit then c.toNat - 48
  else if decide ('a' ≤ c ∧ c ≤ 'f') then c.toNat - 87
  else c.toNat - 55

/-- Value of a digit string in the given base. -/
def digitsVal (l : List Char) (base : Nat) : Nat :=
  l.foldl (fun a c => a * base + hexVal c) 0

/-- Python `int(s, base)` on a nonempty `[0-9A-Fa-f]+` group: fails (raises
ValueError, caught by the source and ignored) when a digit is not valid in
the base. -/
def parseIntBase (l : List Char) (base : Nat) : Option Nat :=
  if l.all (fun c => hexVal c < base) then some (digitsVal l base) else none

/-- Continuation of the `Name:` regex after the literal: `\s*` then an
optional quote then the captured `[A-Za-z0-9_\-]+` group.  A quote is
consumed only when at least one token character follows it (regex
backtracking makes the optional quote unconsumed otherwise, after which the
group fails on the quote character itself). -/
def parseNameAt (s : List Char) : Option (List Char) :=
  let s1 := s.dropWhile isSpaceChar
  let s2 :=
    match s1 with
    | c :: rest =>
      if (c == '\'' || c == '"') && (rest.takeWhile isTokenChar) ≠ [] then rest
      else s1
    | [] => s1
  let tok := s2.takeWhile isTokenChar
  if tok = [] then none else some tok

/-- Leftmost search of `re.search(r"Name:\s*['\"]?([A-Za-z0-9_\-]+)['\"]?", line)`,
returning the captured group. -/
def searchName : List Char → Option (List Char)
  | [] => none
  | c :: rest =>
    if (['N', 'a', 'm', 'e', ':']).isPrefixOf (c :: rest) then
      match parseNameAt ((c :: rest).drop 5) with
      | some tok => some tok
      | none => searchName rest
    else searchName rest

/-- Continuation of the `Size:` regex after the literal: `\s*` then the
optional literal `0x` then the captured `[0-9A-Fa-f]+` group.  `0x` is
consumed only when a hex digit follows it; otherwise backtracking leaves it
for the group (where `0` itself is a valid digit). -/
def parseSizeAt (s : List Char) : Option (List Char) :=
  let s1 := s.dropWhile isSpaceChar
  let s2 :=
    match s1 with
    | c0 :: c1 :: rest =>
      if c0 == '0' && c1 == 'x' && (rest.takeWhile isHexDigitChar) ≠ [] then rest
      else s1
    | _ => s1
  let tok := s2.takeWhile isHexDigitChar
  if tok = [] then none else some tok

/-- Leftmost search of `re.search(r"Size:\s*(?:0x)?([0-9A-Fa-f]+)", line)`,
returning the captured group. -/
def searchSize : List Char → Option (List Char)
  | [] => none
  | c :: rest =>
    if (['S', 'i', 'z', 'e', ':']).isPrefixOf (c :: rest) then
      match parseSizeAt ((c :: rest).drop 5) with
      | some tok => some tok
      | none => searchSize rest
    else searchSize rest

/-- Continuation of the identifier regex after the matched keyword and
colon: `\s*` then the captured `[0-9]+` group. -/
def parseIdAt (s : List Char) : Option (List Char) :=
  let ds := (s.dropWhile isSpaceChar).takeWhile Char.isDigit
  if ds = [] then none else some ds

/-- One alternation branch of the identifier regex: the keyword (with its
colon) followed by the digit group. -/
def idBranch (kw s : List Char) : Option (List Char) :=
  if kw.isPrefixOf s then parseIdAt (s.drop kw.length) else none

/-- Leftmost search of `re.search(r"(?:Identifier|Id|ID):\s*([0-9]+)", line)`,
returning the captured group; the alternation is tried left to right at
each position. -/
def searchId : List Char → Option (List Char)
  | [] => none
  | c :: rest =>
    match idBranch (['I', 'd', 'e', 'n', 't', 'i', 'f', 'i', 'e', 'r', ':']) (c :: rest) with
    | some ds => some ds
    | none =>
      match idBranch (['I', 'd', ':']) (c :: rest) with
      | some ds => some ds
      | none =>
        match idBranch (['I', 'D', ':']) (c :: rest) with
        | some ds => some ds
        | none => searchId rest

/-- Helper for `splitLines`: accumulate the current line until a newline. -/
def splitLinesAux : List Char → List Char → List (List Char)
  | [], acc => [acc.reverse]
  | '\n' :: rest, acc => acc.reverse :: splitLinesAux rest []
  | c :: rest, acc => splitLinesAux rest (c :: acc)

/-- Python `str.splitlines` for texts whose line terminator is `\n`: a
trailing terminator does not produce an empty final line. -/
def splitLines (l : List Char) : List (List Char) :=
  if l = [] then []
  else
    let segs := splitLinesAux l []
    if l.getLast? = some '\n' then segs.dropLast else segs

/-- Loop state of `PitParser._parse_text`: the accumulated partitions, the
`current_part` variable (which the source only ever sets to `None`), and
the `name`/`size`/`pid` fields of the record in progress. -/
structure PTState where
  parts : List Partition
  currentPart : Option Partition
  name : Option (List Char)
  size : Option Nat
  pid : Option Nat
  deriving DecidableEq, Repr

/-- Initial state of the `_parse_text` loop. -/
def ptInit : PTState :=
  { parts := [], currentPart := none, name := none, size := none, pid := none }

/-- One iteration of the `_parse_text` line loop, faithful to the source:
a delimiter line flushes `current_part` (which is always `None`, so the
flush appends nothing) and clears the in-progress fields; the same line is
then still matched for `Name:`, `Size:` and the identifier field, each
`continue`-ing on success. -/
def processLine (st : PTState) (rawLine : List Char) : PTState :=
  let line := stripChars rawLine
  let st :=
    if containsSub ("Partition #".toList) line || containsSub ("Entry #".toList) line then
      { parts := st.parts ++ (match st.currentPart with | some p => [p] | none => []),
        currentPart := none, name := none, size := none, pid := none }
    else st
  match searchName line with
  | some tok => { st with name := some (tok.map charLower) }
  | none =>
    match searchSize line with
    | some digits =>
      let base := if containsSub ('0' :: ['x']) (line.map charLower) then 16 else 10
      match parseIntBase digits base with
      | some v => { st with size := some v }
      | none => st
    | none =>
      match searchId line with
      | some ds => { st with pid := some (digitsVal ds 10) }
      | none => st

/-- `PitParser._parse_text`: fold the line loop over the split lines, then
flush the last in-progress record when it has a name. -/
def parseText (text : String) : List Partition :=
  let st := (splitLines text.data).foldl processLine ptInit
  match st.name with
  | some n => st.parts ++ [mkPartition (String.mk n) none st.size st.pid none]
  | none => st.parts

-- -------------------- PitParser.parse_heuristic --------------------

/-- Byte class of the regex `[A-Za-z0-9_\-]` used by the heuristic token
scan. -/
def isTokByte (b : Nat) : Bool :=
  decide ((65 ≤ b ∧ b ≤ 90) ∨ (97 ≤ b ∧ b ≤ 122) ∨ (48 ≤ b ∧ b ≤ 57) ∨
    b = 95 ∨ b = 45)

/-- ASCII lowercasing of one byte (Python `bytes.decode(...).lower()` on
ASCII input). -/
def byteLower (b : Nat) : Nat :=
  if 65 ≤ b ∧ b ≤ 90 then b + 32 else b

/-- ASCII uppercasing of one character, the effect of Python `str.upper`
on the lowercase common partition names. -/
def charUpper (c : Char) : Char :=
  if 97 ≤ c.toNat ∧ c.toNat ≤ 122 then Char.ofNat (c.toNat - 32) else c

/-- ASCII encoding of a string, Python `str.encode("ascii")`. -/
def bytesOfString (s : String) : Bytes :=
  s.data.map Char.toNat

/-- Python `bytes.find`: index of the first occurrence of `pat`. -/
def findSub (pat : Bytes) : Bytes → Option Nat
  | [] => if pat = [] then some 0 else none
  | b :: rest =>
    if pat.isPrefixOf (b :: rest) then some 0
    else (findSub pat rest).map (· + 1)

/-- The `common_partitions` list of `parse_heuristic`, in source order. -/
def commonPartitions : List String :=
  ["boot", "recovery", "system", "userdata", "cache", "modem",
   "radio", "efs", "param", "dtb", "dtbo", "vbmeta", "misc",
   "logo", "cp", "aboot", "sbl", "rpm", "tz", "hyp", "lk",
   "bootloader", "pit", "hidden", "metadata"]

/-- The three byte patterns tried for a common name, in source order:
`name+\x00`, `\x00+name+\x00`, `NAME+\x00`. -/
def patternsFor (n : String) : List Bytes :=
  [bytesOfString n ++ [0],
   0 :: (bytesOfString n ++ [0]),
   bytesOfString (String.mk (n.data.map charUpper)) ++ [0]]

/-- `int.from_bytes(window[i:i+4], "little")`; the call sites guarantee the
four bytes exist. -/
def le32At (w : Bytes) (i : Nat) : Nat :=
  w.getD i 0 + 256 * w.getD (i + 1) 0 + 65536 * w.getD (i + 2) 0 +
    16777216 * w.getD (i + 3) 0

/-- The search window `pit_bytes[max(0, idx-64):min(len(pit_bytes), idx+256)]`. -/
def windowOf (bytes : Bytes) (idx : Nat) : Bytes :=
  (bytes.drop (idx - 64)).take (min bytes.length (idx + 256) - (idx - 64))

/-- The size scan of `parse_heuristic`: little-endian words at offsets
`range(0, len(window)-4, 4)`, keeping the first value in the inclusive
plausible range `[0x1000, 0x100000000]`. -/
def firstSizeIn (w : Bytes) : Option Nat :=
  ((List.range ((w.length - 4 + 3) / 4)).map (fun i => le32At w (4 * i))).find?
    (fun v => decide (0x1000 ≤ v ∧ v ≤ 0x100000000))

/-- First phase of `parse_heuristic`: for each common partition name whose
encoded pattern occurs in the blob, record it (the `seen_names` guard can
never fire since the common names are distinct) with the first plausible
size found near the first occurrence of the first matching pattern. -/
def phase1 : List String → Bytes → List String → List Partition →
    (List Partition × List String)
  | [], _, seen, parts => (parts, seen)
  | n :: ns, bytes, seen, parts =>
    match (patternsFor n).find? (fun pat => (findSub pat bytes).isSome) with
    | some pat =>
      if n ∈ seen then phase1 ns bytes seen parts
      else
        let idx := (findSub pat bytes).getD 0
        let size := firstSizeIn (windowOf bytes idx)
        phase1 ns bytes (n :: seen) (parts ++ [mkPartition n none size none none])
    | none => phase1 ns bytes seen parts

/-- The token scan `re.findall(rb"([A-Za-z0-9_\-]{3,32})\x00", pit_bytes)`:
at each position, a match requires a maximal token-byte run of length 3–32
followed by a zero byte (greedy matching with backtracking admits no other
match); scanning resumes after the zero byte of a match. -/
def findTokensAux : Nat → Bytes → List Bytes
  | 0, _ => []
  | _, [] => []
  | fuel + 1, b :: rest =>
    let r := ((b :: rest).takeWhile isTokByte).length
    if 3 ≤ r ∧ r ≤ 32 ∧ (b :: rest).get? r = some 0 then
      (b :: rest).take r :: findTokensAux fuel ((b :: rest).drop (r + 1))
    else findTokensAux fuel rest

/-- Entry point of the token scan; the fuel equals the list length, and
every recursive call shortens the list by at least one byte while spending
one unit of fuel, so the fuel never runs out before the scan ends. -/
def findTokens (bytes : Bytes) : List Bytes :=
  findTokensAux bytes.length bytes

/-- The structural-noise token list of the regex phase of
`parse_heuristic` (note: it does not contain `pit`, `bootloader` or
`odinfw`). -/
def noiseTokens : List String :=
  ["samsung", "android", "partition", "table", "header"]

/-- Byte-level character class of the regex `^[a-z0-9_\-]+$` applied after
lowercasing. -/
def isLowerTokChar (c : Char) : Bool :=
  decide ((97 ≤ c.toNat ∧ c.toNat ≤ 122) ∨ (48 ≤ c.toNat ∧ c.toNat ≤ 57) ∨
    c.toNat = 95 ∨ c.toNat = 45)

/-- Second phase of `parse_heuristic`: each scanned token is decoded and
lowercased, then filtered by length, the seen set, the noise list and the
lowercase-token regex; survivors are recorded by name. -/
def phase2 : List Bytes → List String → List Partition → List Partition
  | [], _, parts => parts
  | t :: ts, seen, parts =>
    let s := String.mk (t.map (fun b => Char.ofNat (byteLower b)))
    if s.length < 3 ∨ 32 < s.length then phase2 ts seen parts
    else if s ∈ seen ∨ s ∈ noiseTokens then phase2 ts seen parts
    else if ¬ (s.data.all isLowerTokChar) then phase2 ts seen parts
    else if s ∈ seen then phase2 ts seen parts
    else phase2 ts (s :: seen) (parts ++ [mkPartition s none none none none])

/-- `PitParser.parse_heuristic`: the common-name phase followed by the
regex token phase, sharing the `seen_names` set. -/
def parseHeuristic (bytes : Bytes) : List Partition :=
  let p1 := phase1 commonPartitions bytes [] []
  phase2 (findTokens bytes) p1.2 p1.1

-- -------------------- Transport, effect and error model --------------------

/-- One receive interaction on the bulk transport, as consumed by
`_receive_packet`: a well-framed packet (header plus payload), a receive
timeout, or another transport/framing error.  The source turns the latter
two into an `OdinProtocolError` whose text does or does not mark a
timeout. -/
inductive RecvEvent
  | packet (cmd : Nat) (data : Bytes)
  | timeout
  | err
  deriving DecidableEq, Repr

/-- Observable side effects of an operation: an external-tool invocation, a
bulk write of raw bytes, or a `time.sleep` pause. -/
inductive Action
  | tool (args : List String)
  | write (bytes : Bytes)
  | slept
  deriving DecidableEq, Repr

/-- The raise sites of bridge.py, one constructor each.  The source raises
`XynError`/`OdinProtocolError` with distinct messages; the specification
names the corresponding taxonomy entries `HandshakeError`, `NotFoundError`,
`SafetyGateError`, `ProtocolError`. -/
inductive Err
  | handshake
  | notFound
  | safetyGateWrite
  | safetyGateErase
  | inputMissing
  | inputEmpty
  | protocol
  | tooLarge
  | readFailed (cause : Err)
  | writeFailed (cause : Err)
  | eraseFailed (cause : Err)
  deriving DecidableEq, Repr

/-- The facts `_call_heimdall` depends on: whether `shutil.which` finds the
tool, and whether an invocation exits with code 0 (a timeout or exception
is folded into a nonzero exit, as the source returns False for all of
them). -/
structure ToolEnv where
  available : Bool
  succeeds : Bool
  deriving DecidableEq, Repr

/-- `ExynosBridge._call_heimdall`: when the tool is absent it returns False
without running anything; otherwise it runs the tool and reports whether
the exit code was zero. -/
def callHeimdall (t : ToolEnv) (args : List String) : Bool × List Action :=
  if t.available then (t.succeeds, [Action.tool args]) else (false, [])

/-- Outcome of one handshake attempt of `establish_session`: the bulk read
returned these response bytes, or the write/read raised (timeout or other
transport error). -/
inductive HsEvent
  | reply (resp : Bytes)
  | exc
  deriving DecidableEq, Repr

/-- The retry loop of `establish_session`, one iteration per remaining
attempt, consuming the attempt outcomes from the stream `hs` starting at
index `i`.  Each attempt writes the 4-byte host magic; a reply whose first
4 bytes are the expected magic sets the session flag and returns; a
mismatching reply falls through to the next attempt with no pause; an
exception logs and sleeps 0.5 s before the next attempt.  Exhausting the
attempts raises (spec: HandshakeError). -/
def esLoop (hs : Nat → HsEvent) : Nat → Nat → Except Err Unit × Bool × List Action
  | _, 0 => (Except.error Err.handshake, false, [])
  | i, r + 1 =>
    match hs i with
    | HsEvent.reply resp =>
      if lokeMagic.isPrefixOf resp then (Except.ok (), true, [Action.write odinMagic])
      else
        let rest := esLoop hs (i + 1) r
        (rest.1, rest.2.1, Action.write odinMagic :: rest.2.2)
    | HsEvent.exc =>
      let rest := esLoop hs (i + 1) r
      (rest.1, rest.2.1, Action.write odinMagic :: Action.slept :: rest.2.2)

/-- `ExynosBridge.establish_session(attempts)`: the result, the final
`session_established` flag, and the trace of writes and sleeps. -/
def establishSession (attempts : Nat) (hs : Nat → HsEvent) :
    Except Err Unit × Bool × List Action :=
  esLoop hs 0 attempts

/-- The environment a transfer operation runs in: the external tool's
behaviour, the bytes a successful tool dump leaves in the output file, the
detected partition catalog, whether a session is already established, the
handshake event stream used if one must be established, and whether bulk
writes succeed. -/
structure BridgeEnv where
  tool : ToolEnv
  toolOutput : Bytes
  catalog : List Partition
  established : Bool
  hs : Nat → HsEvent
  sendsOk : Bool

/-- The session precondition shared by the transfer operations: when no
session is established, `establish_session()` is called (its failure
propagates before the operation's try block). -/
def ensureSession (env : BridgeEnv) : Except Err Unit :=
  if env.established then Except.ok () else (establishSession 3 env.hs).1

/-- Handshake trace produced by `ensureSession`. -/
def sessionTrace (env : BridgeEnv) : List Action :=
  if env.established then [] else (establishSession 3 env.hs).2.2

/-- The 16 GiB safety ceiling of the read loop. -/
def SIXTEEN_GiB : Nat := 16 * 1024 * 1024 * 1024

/-- Result of the raw read receive loop. -/
inductive LoopRes
  | done (b : Bool)
  | tooBig
  | protoErr
  | blocked
  deriving DecidableEq, Repr

/-- The receive loop of `read_partition`, with the running byte total and
the bytes written to the output file so far: a completion packet returns
True; a transfer packet appends its payload; any other packet is ignored;
after each packet, exceeding 16 GiB raises; a receive timeout returns
`total_received > 0`; another protocol error re-raises.  An exhausted event
list stands for a transport that never responds again (the loop is still
blocked in a read). -/
def readLoop : List RecvEvent → Nat → Bytes → LoopRes × Bytes
  | [], _, acc => (LoopRes.blocked, acc)
  | RecvEvent.timeout :: _, total, acc => (LoopRes.done (decide (0 < total)), acc)
  | RecvEvent.err :: _, _, acc => (LoopRes.protoErr, acc)
  | RecvEvent.packet c d :: rest, total, acc =>
    if c = FILE_COMPLETE then (LoopRes.done true, acc)
    else
      let total2 := if c = FILE_TRANSFER then total + d.length else total
      let acc2 := if c = FILE_TRANSFER then acc ++ d else acc
      if SIXTEEN_GiB < total2 then (LoopRes.tooBig, acc2)
      else readLoop rest total2 acc2

/-- What `read_partition` returns or raises. -/
inductive RRes
  | returned (b : Bool)
  | raised (e : Err)
  | blocked
  deriving DecidableEq, Repr

/-- Outcome of `read_partition`: the result, whether the output file exists
afterwards, and its contents when it does. -/
structure ReadOut where
  res : RRes
  fileExists : Bool
  fileBytes : Bytes
  deriving DecidableEq, Repr

/-- `ExynosBridge.read_partition`: the heimdall dump path first; then
partition resolution (a name absent from the detected catalog raises, with
no cleanup, before any file is touched); then session establishment (also
before the try block); then the transfer-request send, the creation of the
output file, and the receive loop.  An exception inside the try block
deletes the output file before re-raising as `XynError`; the return paths
leave the file in place.  `pre`/`preBytes` describe a file already at the
output path before the call. -/
def readPartition (env : BridgeEnv) (name : String) (pre : Bool)
    (preBytes : Bytes) (events : List RecvEvent) : ReadOut :=
  if (callHeimdall env.tool ["dump", name]).1 then
    { res := RRes.returned true, fileExists := true, fileBytes := env.toolOutput }
  else
    match getPartitionByName env.catalog name with
    | none => { res := RRes.raised Err.notFound, fileExists := pre, fileBytes := preBytes }
    | some _ =>
      match ensureSession env with
      | Except.error e =>
        { res := RRes.raised e, fileExists := pre, fileBytes := preBytes }
      | Except.ok _ =>
        if env.sendsOk = false then
          { res := RRes.raised (Err.readFailed Err.protocol), fileExists := false,
            fileBytes := [] }
        else
          match readLoop events 0 [] with
          | (LoopRes.done b, acc) =>
            { res := RRes.returned b, fileExists := true, fileBytes := acc }
          | (LoopRes.tooBig, _) =>
            { res := RRes.raised (Err.readFailed Err.tooLarge), fileExists := false,
              fileBytes := [] }
          | (LoopRes.protoErr, _) =>
            { res := RRes.raised (Err.readFailed Err.protocol), fileExists := false,
              fileBytes := [] }
          | (LoopRes.blocked, acc) =>
            { res := RRes.blocked, fileExists := true, fileBytes := acc }

/-- Fuel-driven splitting of a byte string into chunks of `n` bytes,
mirroring the `f.read(buffer_size)` loop; the fuel equals the length, and
each step consumes at least one byte, so it never runs out. -/
def chunkAux : Nat → Nat → Bytes → List Bytes
  | 0, _, _ => []
  | _, _, [] => []
  | fuel + 1, n, l => l.take n :: chunkAux fuel n (l.drop n)

/-- Split a file into transfer chunks of `n` bytes. -/
def chunkBytes (n : Nat) (l : Bytes) : List Bytes :=
  chunkAux l.length n l

/-- The write chunk size, 128 KiB. -/
def WRITE_CHUNK : Nat := 128 * 1024

/-- The raw-protocol packet writes of the write path: the partition-info
packet (identifier and total size), one transfer packet per chunk, and the
completion packet.  (The MD5 digest the source computes is logged only and
affects no behaviour.) -/
def writeSends (pid : Nat) (fileBytes : Bytes) : List Action :=
  Action.write (encodePacket PARTITION_INFO (le32 pid ++ le32 fileBytes.length)) ::
    ((chunkBytes WRITE_CHUNK fileBytes).map
      (fun c => Action.write (encodePacket FILE_TRANSFER c))) ++
    [Action.write (encodePacket FILE_COMPLETE [])]

/-- `ExynosBridge.write_partition`: the heimdall flash path first; without
force, the raw path is refused (spec: SafetyGateError); then input-file
validation, best-effort partition lookup (a missing entry only logs a
warning), session establishment, the packet stream, and the acknowledgment
read: the expected completion code returns True, any other packet returns
False, and any `OdinProtocolError` from the read — a timeout included — is
absorbed with "assume success", returning True. -/
def writePartition (env : BridgeEnv) (name : String) (input : Option Bytes)
    (force : Bool) (ack : RecvEvent) : Except Err Bool × List Action :=
  let tool := callHeimdall env.tool ["flash", name]
  if tool.1 then (Except.ok true, tool.2)
  else if force = false then (Except.error Err.safetyGateWrite, tool.2)
  else
    match input with
    | none => (Except.error Err.inputMissing, tool.2)
    | some fileBytes =>
      if fileBytes.length = 0 then (Except.error Err.inputEmpty, tool.2)
      else
        match ensureSession env with
        | Except.error e => (Except.error e, tool.2 ++ sessionTrace env)
        | Except.ok _ =>
          if env.sendsOk = false then
            (Except.error (Err.writeFailed Err.protocol), tool.2 ++ sessionTrace env)
          else
            let tr := tool.2 ++ sessionTrace env ++
              writeSends (guessPartitionIdentifier env.catalog name) fileBytes
            match ack with
            | RecvEvent.packet c _ =>
              if c = FILE_COMPLETE then (Except.ok true, tr) else (Except.ok false, tr)
            | RecvEvent.timeout => (Except.ok true, tr)
            | RecvEvent.err => (Except.ok true, tr)

/-- `ExynosBridge.erase_partition`: the force gate comes first, before any
tool invocation (spec: SafetyGateError); then the heimdall erase path;
then best-effort lookup, session establishment, the erase-request packet,
and the completion read with its 60 s class timeout: the completion code
returns True, another packet returns False, a timeout returns False
(erase success is never assumed), and another protocol error re-raises as
`XynError`. -/
def erasePartition (env : BridgeEnv) (name : String) (force : Bool)
    (ack : RecvEvent) : Except Err Bool × List Action :=
  if force = false then (Except.error Err.safetyGateErase, [])
  else
    let tool := callHeimdall env.tool ["erase", name]
    if tool.1 then (Except.ok true, tool.2)
    else
      match ensureSession env with
      | Except.error e => (Except.error e, tool.2 ++ sessionTrace env)
      | Except.ok _ =>
        if env.sendsOk = false then
          (Except.error (Err.eraseFailed Err.protocol), tool.2 ++ sessionTrace env)
        else
          let tr := tool.2 ++ sessionTrace env ++
            [Action.write (encodePacket ERASE_PARTITION
              (le32 (guessPartitionIdentifier env.catalog name)))]
          match ack with
          | RecvEvent.packet c _ =>
            if c = FILE_COMPLETE then (Except.ok true, tr) else (Except.ok false, tr)
          | RecvEvent.timeout => (Except.ok false, tr)
          | RecvEvent.err => (Except.error (Err.eraseFailed Err.protocol), tr)

-- -------------------- disconnect --------------------

/-- The session-relevant fields of `ExynosBridge`, together with the
partition manager's catalog. -/
structure BState where
  dev : Bool
  interface : Option Nat
  inEp : Option Nat
  outEp : Option Nat
  detachedKernel : Bool
  sessionEstablished : Bool
  partitions : List Partition
  layoutDetected : Bool
  deriving DecidableEq, Repr

/-- Whether each fallible step of `disconnect` would succeed; every one of
them is wrapped in try/except-pass by the source, so none can change the
final state. -/
structure DisconnectEnv where
  endSessionOk : Bool
  releaseOk : Bool
  attachOk : Bool
  deriving DecidableEq, Repr

/-- `ExynosBridge.disconnect`: best-effort session end, interface release
and kernel-driver reattachment (all exceptions swallowed), then
unconditional clearing of the device handle, interface, endpoints,
detached-kernel flag and session flag.  The partition manager and its
catalog are not touched.  The function is total: no path raises. -/
def disconnect (_env : DisconnectEnv) (s : BState) : BState :=
  { dev := false, interface := none, inEp := none, outEp := none,
    detachedKernel := false, sessionEstablished := false,
    partitions := s.partitions, layoutDetected := s.layoutDetected }

/-- Example catalog used to instantiate universally quantified theorems. -/
def demoCatalog : List Partition :=
  [mkPartition "boot" none none (some 42) none,
   mkPartition "efs" none none none none]

/-- Textual tool output declaring two partition records. -/
def twoRecordText : String :=
  "Partition #1\nName: boot\nSize: 100\nPartition #2\nName: recovery\nSize: 200"

/-- PIT blob containing the zero-terminated token `odinfw`, then
`b"boot\x00"`, then (within 256 bytes of the token) the little-endian
32-bit value `0x02000000`. -/
def c8Blob : Bytes :=
  [0x6F, 0x64, 0x69, 0x6E, 0x66, 0x77, 0x00,
   0x62, 0x6F, 0x6F, 0x74, 0x00,
   0x00, 0x00, 0x00, 0x02]

/-- PIT blob containing the noise token `samsung` and the common name
`system`, both zero-terminated. -/
def samsungBlob : Bytes :=
  [0x73, 0x61, 0x6D, 0x73, 0x75, 0x6E, 0x67, 0x00,
   0x73, 0x79, 0x73, 0x74, 0x65, 0x6D, 0x00]

/-- PIT blob containing the token `boot` twice, zero-terminated. -/
def dupBootBlob : Bytes :=
  [0x62, 0x6F, 0x6F, 0x74, 0x00, 0x62, 0x6F, 0x6F, 0x74, 0x00]

/-- Predicate on trace actions: anything but a bulk write. -/
def notWriteAction (a : Action) : Bool :=
  match a with
  | Action.write _ => false
  | _ => true

/-- Predicate on trace actions: a bulk write. -/
def isWriteAction (a : Action) : Bool :=
  match a with
  | Action.write _ => true
  | _ => false

/-- Receive events that can never make the read loop return success: any
packet other than a completion packet, and non-timeout transport errors.
A trace of such events models a transport that never delivers a completion
packet and never times out. -/
def noSuccessEvent (e : RecvEvent) : Bool :=
  match e with
  | RecvEvent.packet c _ => c != FILE_COMPLETE
  | RecvEvent.timeout => false
  | RecvEvent.err => true

/-- Environment with no external tool, an established session and a working
bulk-out endpoint, over the example catalog. -/
def noToolEnv : BridgeEnv :=
  { tool := { available := false, succeeds := false }, toolOutput := [],
    catalog := demoCatalog, established := true, hs := fun _ => HsEvent.exc,
    sendsOk := true }

/-- A handshake reply carrying the wrong magic. -/
def wrongResp : Bytes := [0x44, 0x45, 0x41, 0x44]

/-- Handshake stream: wrong magic on attempt 1, correct magic afterwards. -/
def hsWrongThenRight : Nat → HsEvent :=
  fun i => if i = 0 then HsEvent.reply wrongResp
    else HsEvent.reply (lokeMagic ++ [0, 0])

/-- Handshake stream: wrong magic on attempt 1 (zero bytes variant),
correct magic afterwards. -/
def hsW2 : Nat → HsEvent :=
  fun i => if i = 0 then HsEvent.reply [0, 0, 0, 0] else HsEvent.reply lokeMagic

/-- Handshake stream: every reply carries the wrong magic. -/
def hsAllWrong : Nat → HsEvent := fun _ => HsEvent.reply [9, 9, 9, 9]

/-- Handshake stream: every attempt raises (for example a read timeout). -/
def hsAllExc : Nat → HsEvent := fun _ => HsEvent.exc

/-- A fully connected session state holding the example catalog. -/
def connectedState : BState :=
  { dev := true, interface := some 0, inEp := some 129, outEp := some 1,
    detachedKernel := true, sessionEstablished := true,
    partitions := demoCatalog, layoutDetected := true }

/-- Disconnect environment in which every fallible step succeeds. -/
def anyDEnv : DisconnectEnv :=
  { endSessionOk := true, releaseOk := true, attachOk := true }

/-- Disconnect environment in which every fallible step fails. -/
def failDEnv : DisconnectEnv :=
  { endSessionOk := false, releaseOk := false, attachOk := false }

-- ==================== Theorems ====================

/-- A fallback through the static table never yields 0: every table entry is
positive and the sentinel is `0xFFFFFFFF`. -/
theorem lookup_commonMap_getD_ne_zero (key : String) :
    ((commonMap.lookup key).getD SENTINEL_ID) ≠ 0 := by
  simp only [commonMap, List.lookup]
  repeat' split
  all_goals decide

/-- C6: `guess_partition_identifier` returns the catalog's explicit id when
one is recorded; otherwise it falls back to the static table (boot=1,
recovery=2, system=3, userdata=4, cache=5, modem=6, radio=6, efs=7,
param=8, dtb=9, dtbo=10, vbmeta=11, misc=12) and, for names absent from
both, to the sentinel 0xFFFFFFFF; on the fallback path it never returns 0. -/
theorem c6_guess_partition_identifier (parts : List Partition) (name : String) :
    (∀ p i, getPartitionByName parts name = some p → p.id = some i →
        guessPartitionIdentifier parts name = i) ∧
    (catalogId parts name = none →
        guessPartitionIdentifier parts name
            = (commonMap.lookup (strLower name)).getD SENTINEL_ID ∧
        guessPartitionIdentifier parts name ≠ 0) ∧
    (guessPartitionIdentifier [] "boot" = 1 ∧
     guessPartitionIdentifier [] "recovery" = 2 ∧
     guessPartitionIdentifier [] "system" = 3 ∧
     guessPartitionIdentifier [] "userdata" = 4 ∧
     guessPartitionIdentifier [] "cache" = 5 ∧
     guessPartitionIdentifier [] "modem" = 6 ∧
     guessPartitionIdentifier [] "radio" = 6 ∧
     guessPartitionIdentifier [] "efs" = 7 ∧
     guessPartitionIdentifier [] "param" = 8 ∧
     guessPartitionIdentifier [] "dtb" = 9 ∧
     guessPartitionIdentifier [] "dtbo" = 10 ∧
     guessPartitionIdentifier [] "vbmeta" = 11 ∧
     guessPartitionIdentifier [] "misc" = 12 ∧
     guessPartitionIdentifier [] "unknownname" = SENTINEL_ID) := by
  refine ⟨fun p i hp hi => ?_, fun h => ?_, by decide⟩
  · simp only [guessPartitionIdentifier, hp, hi]
  · unfold guessPartitionIdentifier
    cases hq : getPartitionByName parts name with
    | none => exact ⟨rfl, lookup_commonMap_getD_ne_zero _⟩
    | some p =>
      simp only [catalogId, hq] at h
      simp only [h]
      exact ⟨trivial, lookup_commonMap_getD_ne_zero _⟩

/-- Witness for C6: on the example catalog, `boot` resolves to its recorded
id 42; an unknown name resolves to the nonzero sentinel. -/
theorem c6_witness :
    guessPartitionIdentifier demoCatalog "boot" = 42 ∧
    (guessPartitionIdentifier demoCatalog "zzz"
        = (commonMap.lookup (strLower "zzz")).getD SENTINEL_ID ∧
     guessPartitionIdentifier demoCatalog "zzz" ≠ 0) :=
  ⟨(c6_guess_partition_identifier demoCatalog "boot").1
      (mkPartition "boot" none none (some 42) none) 42 (by decide) rfl,
   (c6_guess_partition_identifier demoCatalog "zzz").2.1 (by decide)⟩

/-- C10: the `Partition` constructor lowercases the stored name
unconditionally, and `get_partition_by_name` lowercases its argument before
the catalog lookup, so partition resolution — and hence the resolution done
by `read_partition`, `write_partition` and `erase_partition` — is
case-insensitive: any two spellings with the same lowercase form resolve to
the same partition. -/
theorem c10_case_insensitive_resolution :
    (∀ (name : String) (start length id : Option Nat)
        (filename : Option String),
        (mkPartition name start length id filename).name = strLower name) ∧
    (∀ (parts : List Partition) (n1 n2 : String), strLower n1 = strLower n2 →
        getPartitionByName parts n1 = getPartitionByName parts n2) := by
  refine ⟨fun _ _ _ _ _ => rfl, fun parts n1 n2 h => ?_⟩
  unfold getPartitionByName
  rw [h]

/-- Witness for C10: looking up `BOOT` and `boot` in the example catalog
yields the same partition. -/
theorem c10_witness :
    getPartitionByName demoCatalog "BOOT" = getPartitionByName demoCatalog "boot" :=
  c10_case_insensitive_resolution.2 demoCatalog "BOOT" "boot" (by decide)

/-- C5: the claim says `_parse_text` returns one triple per declared
record, flushing each in-progress record at the next delimiter.  The code
cannot do this: `current_part` is only ever set to `None`, so the
per-delimiter flush `parts.append(current_part)` never appends anything,
and only the record in progress at end of input is ever returned.  On a
well-formed two-record input the code yields just the final record. -/
theorem c5_parse_text_drops_all_but_last_record :
    parseText twoRecordText = [mkPartition "recovery" none (some 200) none none] ∧
    (parseText twoRecordText).length = 1 := by
  constructor
  · rfl
  · rfl

/-- C8 counterexample: the blob decomposes as the token `odinfw`, then
`b"boot\x00"`, then the little-endian value `0x02000000` within 256 bytes
of the token, yet `parse_heuristic` returns a partition named `odinfw`
(which the claim's noise list excludes) and gives `boot` the length
`0x6E69646F` — the little-endian reading of the bytes `odin` — rather than
the claimed `0x02000000`: the size scan takes the first plausible aligned
word of the whole window, which starts 64 bytes before the token. -/
theorem c8_counterexample :
    c8Blob = [0x6F, 0x64, 0x69, 0x6E, 0x66, 0x77, 0x00] ++
      (bytesOfString "boot" ++ [0]) ++ le32 0x02000000 ∧
    (parseHeuristic c8Blob).map (fun p => (p.name, p.length))
      = [("boot", some 0x6E69646F), ("odinfw", none)] := by
  constructor
  · rfl
  · rfl

/-- A character accepted by the lowercase token class is left unchanged by
ASCII lowercasing. -/
theorem charLower_fix (c : Char) (h : isLowerTokChar c = true) :
    charLower c = c := by
  simp only [isLowerTokChar, decide_eq_true_eq] at h
  unfold charLower
  have hno : ¬ (65 ≤ c.toNat ∧ c.toNat ≤ 90) := by
    rcases h with h1 | h1 | h1 | h1 <;> omega
  rw [if_neg hno]

/-- A string all of whose characters pass the lowercase token class is a
fixed point of ASCII lowercasing. -/
theorem strLower_fix (s : String) (h : s.data.all isLowerTokChar = true) :
    strLower s = s := by
  obtain ⟨l⟩ := s
  unfold strLower
  simp only
  congr 1
  induction l with
  | nil => rfl
  | cons c cs ih =>
    simp only [List.all_cons, Bool.and_eq_true] at h
    simp only [List.map_cons, charLower_fix c h.1, ih h.2]

/-- Every partition appended by the regex phase has a name outside the
regex phase's noise list. -/
theorem phase2_mem_not_noise :
    ∀ (ts : List Bytes) (seen : List String) (parts : List Partition)
      (p : Partition), p ∈ phase2 ts seen parts →
      p ∈ parts ∨ p.name ∉ noiseTokens := by
  intro ts
  induction ts with
  | nil =>
    intro seen parts p hp
    exact Or.inl hp
  | cons t ts ih =>
    intro seen parts p hp
    simp only [phase2] at hp
    split_ifs at hp with h1 h2 h3 h4
    all_goals try exact ih _ _ p hp
    rcases ih _ _ p hp with hmem | hnn
    · rcases List.mem_append.mp hmem with hl | hr
      · exact Or.inl hl
      · right
        have hs : p = mkPartition
            (String.mk (t.map (fun b => Char.ofNat (byteLower b)))) none none none none := by
          simpa using hr
        rw [hs]
        show strLower (String.mk (t.map (fun b => Char.ofNat (byteLower b)))) ∉ noiseTokens
        rw [strLower_fix _ (by simpa using h3)]
        intro hin
        exact h2 (Or.inr hin)
    · exact Or.inr hnn

/-- Every partition appended by the common-name phase is named by the
lowercasing of one of the scanned common names. -/
theorem phase1_mem_named :
    ∀ (ns : List String) (bytes : Bytes) (seen : List String)
      (parts : List Partition) (p : Partition),
      p ∈ (phase1 ns bytes seen parts).1 →
      p ∈ parts ∨ ∃ n ∈ ns, p.name = strLower n := by
  intro ns
  induction ns with
  | nil =>
    intro bytes seen parts p hp
    exact Or.inl hp
  | cons n ns ih =>
    intro bytes seen parts p hp
    simp only [phase1] at hp
    split at hp
    · split_ifs at hp with hs
      · rcases ih _ _ _ p hp with hmem | ⟨m, hm, hname⟩
        · exact Or.inl hmem
        · exact Or.inr ⟨m, List.mem_cons_of_mem n hm, hname⟩
      · rcases ih _ _ _ p hp with hmem | ⟨m, hm, hname⟩
        · rcases List.mem_append.mp hmem with hl | hr
          · exact Or.inl hl
          · have hp2 := List.mem_singleton.mp hr
            subst hp2
            exact Or.inr ⟨n, List.mem_cons_self n ns, rfl⟩
        · exact Or.inr ⟨m, List.mem_cons_of_mem n hm, hname⟩
    · rcases ih _ _ _ p hp with hmem | ⟨m, hm, hname⟩
      · exact Or.inl hmem
      · exact Or.inr ⟨m, List.mem_cons_of_mem n hm, hname⟩

/-- C8 amended: heuristic parsing runs a common-name phase over a fixed
25-name list (which includes `pit` and `bootloader`), attaching as length
the first plausible little-endian word at a 4-aligned offset of the window
around the pattern's first occurrence — a scan that may select bytes
before the token, including the token's own ASCII; the regex phase then
returns one deduplicated Partition per zero-terminated 3–32 character
token whose lowercase form is outside the noise list `samsung`, `android`,
`partition`, `table`, `header` (so `odinfw` is accepted).  On the scenario
blob, `boot` receives length 0x6E69646F and `odinfw` is returned; noise
filtering and per-name deduplication behave as evaluated below, and no
returned partition is ever named by a noise token. -/
theorem c8_amended_heuristic_behaviour :
    ((parseHeuristic c8Blob).map (fun p => (p.name, p.length))
        = [("boot", some 0x6E69646F), ("odinfw", none)]) ∧
    ((parseHeuristic samsungBlob).map (fun p => (p.name, p.length))
        = [("system", some 0x736D6173)]) ∧
    ((parseHeuristic dupBootBlob).map (fun p => (p.name, p.length))
        = [("boot", some 0x746F6F62)]) ∧
    (∀ (bytes : Bytes) (p : Partition), p ∈ parseHeuristic bytes →
        p.name ∉ noiseTokens) := by
  refine ⟨rfl, rfl, rfl, fun bytes p hp => ?_⟩
  unfold parseHeuristic at hp
  rcases phase2_mem_not_noise _ _ _ p hp with hmem | hnn
  · rcases phase1_mem_named _ _ _ _ p hmem with hfalse | ⟨n, hn, hname⟩
    · exact absurd hfalse (List.not_mem_nil p)
    · rw [hname]
      revert hn
      have : ∀ m ∈ commonPartitions, strLower m ∉ noiseTokens := by decide
      exact this n
  · exact hnn

/-- Witness for C8 amended: the partition `odinfw` produced from the
counterexample blob indeed carries a name outside the noise list. -/
theorem c8_amended_witness :
    (mkPartition "odinfw" none none none none).name ∉ noiseTokens :=
  c8_amended_heuristic_behaviour.2.2.2 c8Blob
    (mkPartition "odinfw" none none none none) (by decide)

/-- When every attempt from index `i` for `r` attempts yields a
wrong-magic reply, the handshake loop exhausts its attempts, leaves the
session flag unset, and its trace is one magic write per attempt with no
sleeps. -/
theorem esLoop_all_mismatch (hs : Nat → HsEvent) :
    ∀ (r i : Nat),
      (∀ j, i ≤ j → j < i + r → ∃ resp, hs j = HsEvent.reply resp ∧
        lokeMagic.isPrefixOf resp = false) →
      esLoop hs i r = (Except.error Err.handshake, false,
        List.replicate r (Action.write odinMagic)) := by
  intro r
  induction r with
  | zero => intro i _; rfl
  | succ r ih =>
    intro i h
    obtain ⟨resp, hrep, hpref⟩ := h i (le_refl i) (by omega)
    simp only [esLoop, hrep, hpref]
    rw [ih (i + 1) (fun j hj1 hj2 => h j (by omega) (by omega))]
    simp [List.replicate_succ]

/-- The handshake loop writes the host magic at most once per remaining
attempt. -/
theorem esLoop_writes_le (hs : Nat → HsEvent) :
    ∀ (r i : Nat), ((esLoop hs i r).2.2.countP isWriteAction) ≤ r := by
  intro r
  induction r with
  | zero => intro i; simp [esLoop]
  | succ r ih =>
    intro i
    simp only [esLoop]
    cases hev : hs i with
    | reply resp =>
      by_cases hp : lokeMagic.isPrefixOf resp
      · simp [hp, List.countP_cons, isWriteAction]
      · simp only [hp, Bool.false_eq_true, if_false, List.countP_cons]
        have := ih (i + 1)
        simp [isWriteAction]
        omega
    | exc =>
      simp only [List.countP_cons]
      have := ih (i + 1)
      simp [isWriteAction]
      omega

/-- A sleep in the handshake trace can only come from an attempt whose
write or read raised; a wrong-magic reply retries without sleeping. -/
theorem esLoop_slept_from_exc (hs : Nat → HsEvent) :
    ∀ (r i : Nat), Action.slept ∈ (esLoop hs i r).2.2 →
      ∃ j, i ≤ j ∧ j < i + r ∧ hs j = HsEvent.exc := by
  intro r
  induction r with
  | zero => intro i hmem; simp [esLoop] at hmem
  | succ r ih =>
    intro i hmem
    cases hev : hs i with
    | reply resp =>
      simp only [esLoop, hev] at hmem
      by_cases hp : lokeMagic.isPrefixOf resp
      · simp [hp] at hmem
      · simp only [hp, Bool.false_eq_true, if_false, List.mem_cons] at hmem
        rcases hmem with hbad | hmem
        · cases hbad
        · obtain ⟨j, hj1, hj2, hje⟩ := ih (i + 1) hmem
          exact ⟨j, by omega, by omega, hje⟩
    | exc => exact ⟨i, le_refl i, by omega, hev⟩

/-- C7 counterexample: with a wrong-magic reply on attempt 1 and a correct
one on attempt 2, the session is established after exactly two magic
writes — but the trace contains no sleep between the attempts, refuting
the claim's "on mismatch or timeout it waits briefly and retries": the
source only sleeps in the exception handler, not after a mismatching
reply. -/
theorem c7_counterexample :
    establishSession 3 hsWrongThenRight
      = (Except.ok (), true, [Action.write odinMagic, Action.write odinMagic]) ∧
    lokeMagic.isPrefixOf wrongResp = false ∧
    Action.slept ∉ (establishSession 3 hsWrongThenRight).2.2 := by
  refine ⟨rfl, rfl, ?_⟩
  decide

/-- C7 amended: `establish_session(attempts=3)` writes the 4-byte host
magic each attempt and accepts a reply whose first 4 bytes equal the
expected magic; a wrong-magic reply retries immediately (no pause), while
a timeout or transport error sleeps briefly before retrying; at most
`attempts` attempts are made; wrong magic on every attempt exhausts them
and raises (spec: HandshakeError) with the session flag unset; a correct
reply on attempt 2 returns success with the flag set after exactly two
writes, with no third attempt. -/
theorem c7_amended_establish_session :
    (∀ (hs : Nat → HsEvent) (r0 r1 : Bytes),
        hs 0 = HsEvent.reply r0 → lokeMagic.isPrefixOf r0 = false →
        hs 1 = HsEvent.reply r1 → lokeMagic.isPrefixOf r1 = true →
        establishSession 3 hs
          = (Except.ok (), true, [Action.write odinMagic, Action.write odinMagic])) ∧
    (∀ (attempts : Nat) (hs : Nat → HsEvent),
        (∀ i, i < attempts → ∃ resp, hs i = HsEvent.reply resp ∧
            lokeMagic.isPrefixOf resp = false) →
        establishSession attempts hs = (Except.error Err.handshake, false,
          List.replicate attempts (Action.write odinMagic))) ∧
    (∀ (attempts : Nat) (hs : Nat → HsEvent),
        ((establishSession attempts hs).2.2.countP isWriteAction) ≤ attempts) ∧
    (∀ (attempts : Nat) (hs : Nat → HsEvent),
        Action.slept ∈ (establishSession attempts hs).2.2 →
        ∃ j, j < attempts ∧ hs j = HsEvent.exc) := by
  refine ⟨?_, ?_, ?_, ?_⟩
  · intro hs r0 r1 h0 hp0 h1 hp1
    show esLoop hs 0 3 = _
    simp only [esLoop, h0, hp0, h1, hp1, Bool.false_eq_true, if_false, if_true]
  · intro attempts hs h
    exact esLoop_all_mismatch hs attempts 0 (fun j hj1 hj2 => h j (by omega))
  · intro attempts hs
    exact esLoop_writes_le hs attempts 0
  · intro attempts hs hmem
    obtain ⟨j, hj1, hj2, hje⟩ := esLoop_slept_from_exc hs attempts 0 hmem
    exact ⟨j, by omega, hje⟩

/-- Witness for C7 amended: success on attempt 2 with exactly two writes;
three wrong-magic replies exhaust two attempts with two writes and raise;
a sleep in a trace implies some attempt raised. -/
theorem c7_amended_witness :
    (establishSession 3 hsW2
        = (Except.ok (), true, [Action.write odinMagic, Action.write odinMagic])) ∧
    (establishSession 2 hsAllWrong = (Except.error Err.handshake, false,
        List.replicate 2 (Action.write odinMagic))) ∧
    (∃ j, j < 3 ∧ hsAllExc j = HsEvent.exc) :=
  ⟨c7_amended_establish_session.1 hsW2 [0, 0, 0, 0] lokeMagic rfl (by decide)
      rfl (by decide),
   c7_amended_establish_session.2.1 2 hsAllWrong
      (fun i _ => ⟨[9, 9, 9, 9], rfl, by decide⟩),
   c7_amended_establish_session.2.2.2 3 hsAllExc (by decide)⟩

/-- Over events that are never a completion packet and never a timeout,
the read loop cannot return success: it blocks, raises on a transport
error, or aborts at the safety ceiling. -/
theorem readLoop_no_success :
    ∀ (events : List RecvEvent) (total : Nat) (acc : Bytes),
      events.all noSuccessEvent = true →
      (readLoop events total acc).1 ≠ LoopRes.done true := by
  intro events
  induction events with
  | nil =>
    intro total acc _ h
    simp [readLoop] at h
  | cons e rest ih =>
    intro total acc hall
    simp only [List.all_cons, Bool.and_eq_true] at hall
    cases e with
    | timeout => simp [noSuccessEvent] at hall
    | err => intro h; simp [readLoop] at h
    | packet c d =>
      have hc : c ≠ FILE_COMPLETE := by
        simpa [noSuccessEvent] using hall.1
      intro h
      simp only [readLoop] at h
      rw [if_neg hc] at h
      by_cases hbig : SIXTEEN_GiB <
          (if c = FILE_TRANSFER then total + d.length else total)
      · rw [if_pos hbig] at h
        exact LoopRes.noConfusion h
      · rw [if_neg hbig] at h
        exact ih _ _ hall.2 h

/-- C3: in the raw read loop, a receive timeout after at least one byte
returns success with the bytes received so far; a receive timeout with
zero bytes received returns failure; over a transport that never delivers
a completion packet and never times out, neither the loop nor
`read_partition` built on it can return success. -/
theorem c3_read_timeout_semantics :
    (∀ (rest : List RecvEvent) (total : Nat) (acc : Bytes), 0 < total →
        readLoop (RecvEvent.timeout :: rest) total acc = (LoopRes.done true, acc)) ∧
    (∀ (rest : List RecvEvent) (acc : Bytes),
        readLoop (RecvEvent.timeout :: rest) 0 acc = (LoopRes.done false, acc)) ∧
    (∀ (events : List RecvEvent) (total : Nat) (acc : Bytes),
        events.all noSuccessEvent = true →
        (readLoop events total acc).1 ≠ LoopRes.done true) ∧
    (∀ (env : BridgeEnv) (name : String) (pre : Bool) (preB : Bytes)
        (events : List RecvEvent),
        env.tool.available = false →
        (getPartitionByName env.catalog name).isSome = true →
        env.established = true → env.sendsOk = true →
        events.all noSuccessEvent = true →
        (readPartition env name pre preB events).res ≠ RRes.returned true) := by
  refine ⟨fun rest total acc h => ?_, fun rest acc => rfl, readLoop_no_success,
    fun env name pre preB events hav hpart hest hsend hev => ?_⟩
  · simp [readLoop, h]
  · have htool : (callHeimdall env.tool ["dump", name]).1 = false := by
      simp [callHeimdall, hav]
    obtain ⟨p, hp⟩ := Option.isSome_iff_exists.mp hpart
    have hsess : ensureSession env = Except.ok () := by simp [ensureSession, hest]
    simp only [readPartition, htool, Bool.false_eq_true, if_false, hp, hsess, hsend]
    rcases hloop : readLoop events 0 [] with ⟨lr, acc⟩
    have hns := readLoop_no_success events 0 [] hev
    rw [hloop] at hns
    cases lr with
    | done b =>
      cases b with
      | false => intro h; exact RRes.noConfusion h (fun hb => Bool.noConfusion hb)
      | true => exact absurd rfl hns
    | tooBig => intro h; exact RRes.noConfusion h
    | protoErr => intro h; exact RRes.noConfusion h
    | blocked => intro h; exact RRes.noConfusion h

/-- Witness for C3: a timeout after five bytes succeeds with those bytes;
a timeout with zero bytes fails; a lone transfer packet never yields
success, neither in the loop nor through `read_partition`. -/
theorem c3_witness :
    readLoop [RecvEvent.timeout] 5 [1, 2, 3, 4, 5] = (LoopRes.done true, [1, 2, 3, 4, 5]) ∧
    readLoop [RecvEvent.timeout] 0 [] = (LoopRes.done false, []) ∧
    (readLoop [RecvEvent.packet FILE_TRANSFER [7]] 0 []).1 ≠ LoopRes.done true ∧
    (readPartition noToolEnv "boot" false [] [RecvEvent.packet FILE_TRANSFER [7]]).res
        ≠ RRes.returned true :=
  ⟨c3_read_timeout_semantics.1 [] 5 [1, 2, 3, 4, 5] (by decide),
   c3_read_timeout_semantics.2.1 [] [],
   c3_read_timeout_semantics.2.2.1 [RecvEvent.packet FILE_TRANSFER [7]] 0 [] (by decide),
   c3_read_timeout_semantics.2.2.2 noToolEnv "boot" false []
      [RecvEvent.packet FILE_TRANSFER [7]] rfl (by decide) rfl rfl (by decide)⟩

/-- A run of the read loop that returns False did so at a timeout with a
zero running total, so the output file received nothing: the loop's
accumulator is unchanged and the total was zero all along. -/
theorem readLoop_done_false :
    ∀ (events : List RecvEvent) (total : Nat) (acc : Bytes),
      (readLoop events total acc).1 = LoopRes.done false →
      (readLoop events total acc).2 = acc ∧ total = 0 := by
  intro events
  induction events with
  | nil => intro total acc h; simp [readLoop] at h
  | cons e rest ih =>
    intro total acc h
    cases e with
    | timeout =>
      simp only [readLoop] at h
      have ht : total = 0 := by
        by_cases hpos : 0 < total
        · simp [hpos] at h
        · omega
      exact ⟨by simp [readLoop], ht⟩
    | err => simp [readLoop] at h
    | packet c d =>
      by_cases hc : c = FILE_COMPLETE
      · simp [readLoop, hc] at h
      · have hstep : readLoop (RecvEvent.packet c d :: rest) total acc
            = if SIXTEEN_GiB < (if c = FILE_TRANSFER then total + d.length else total)
              then (LoopRes.tooBig, if c = FILE_TRANSFER then acc ++ d else acc)
              else readLoop rest (if c = FILE_TRANSFER then total + d.length else total)
                (if c = FILE_TRANSFER then acc ++ d else acc) := by
          simp only [readLoop]
          rw [if_neg hc]
        rw [hstep] at h ⊢
        by_cases hbig : SIXTEEN_GiB <
            (if c = FILE_TRANSFER then total + d.length else total)
        · rw [if_pos hbig] at h
          exact absurd h (by simp)
        · rw [if_neg hbig] at h ⊢
          obtain ⟨ha, ht⟩ := ih _ _ h
          constructor
          · rw [ha]
            by_cases hcf : c = FILE_TRANSFER
            · rw [if_pos hcf] at ht
              rw [if_pos hcf]
              have hd : d = [] := List.length_eq_zero.mp (by omega)
              simp [hd]
            · rw [if_neg hcf]
          · by_cases hcf : c = FILE_TRANSFER
            · rw [if_pos hcf] at ht; omega
            · rwa [if_neg hcf] at ht

/-- C2 counterexample: with the tool path failing, the partition resolved,
a session established and a working send, a receive timeout with zero
bytes received makes `read_partition` return False — a failure — yet the
output file (created empty by `open(out_file, "wb")`) remains on disk:
the claim's "a read that fails at any point leaves no output file" is
false, because cleanup runs only on the exception path and the
zero-byte-timeout failure is a plain `return`. -/
theorem c2_counterexample :
    (readPartition noToolEnv "boot" false [] [RecvEvent.timeout]).res
        = RRes.returned false ∧
    (readPartition noToolEnv "boot" false [] [RecvEvent.timeout]).fileExists = true := by
  exact ⟨rfl, rfl⟩

/-- C2 amended: starting with no file at the output path, every raw read
execution that raises an exception leaves no output file (the partial file
is deleted before `XynError` propagates), while the failing return path —
a receive timeout with zero bytes received — leaves an empty (zero-byte)
output file on disk. -/
theorem c2_amended_read_cleanup (env : BridgeEnv) (name : String)
    (events : List RecvEvent) :
    (∀ e, (readPartition env name false [] events).res = RRes.raised e →
        (readPartition env name false [] events).fileExists = false) ∧
    ((readPartition env name false [] events).res = RRes.returned false →
        (readPartition env name false [] events).fileExists = true ∧
        (readPartition env name false [] events).fileBytes = []) := by
  by_cases htool : (callHeimdall env.tool ["dump", name]).1
  · simp only [readPartition, if_pos htool]
    exact ⟨fun e he => by simp at he, fun hf => by simp at hf⟩
  · cases hname : getPartitionByName env.catalog name with
    | none =>
      simp only [readPartition, if_neg htool, hname]
      exact ⟨fun e _ => trivial, fun hf => by simp at hf⟩
    | some p =>
      cases hsess : ensureSession env with
      | error e0 =>
        simp only [readPartition, if_neg htool, hname, hsess]
        exact ⟨fun e _ => trivial, fun hf => by simp at hf⟩
      | ok u =>
        by_cases hsend : env.sendsOk = false
        · simp only [readPartition, if_neg htool, hname, hsess, if_pos hsend]
          exact ⟨fun e _ => trivial, fun hf => by simp at hf⟩
        · rcases hloop : readLoop events 0 [] with ⟨lr, acc⟩
          cases lr with
          | done b =>
            cases b with
            | false =>
              simp only [readPartition, if_neg htool, hname, hsess, if_neg hsend, hloop]
              refine ⟨fun e he => by simp at he, fun _ => ⟨trivial, ?_⟩⟩
              have hdf := readLoop_done_false events 0 [] (by rw [hloop])
              rw [hloop] at hdf
              exact hdf.1
            | true =>
              simp only [readPartition, if_neg htool, hname, hsess, if_neg hsend, hloop]
              exact ⟨fun e he => by simp at he, fun hf => by simp at hf⟩
          | tooBig =>
            simp only [readPartition, if_neg htool, hname, hsess, if_neg hsend, hloop]
            exact ⟨fun e _ => trivial, fun hf => by simp at hf⟩
          | protoErr =>
            simp only [readPartition, if_neg htool, hname, hsess, if_neg hsend, hloop]
            exact ⟨fun e _ => trivial, fun hf => by simp at hf⟩
          | blocked =>
            simp only [readPartition, if_neg htool, hname, hsess, if_neg hsend, hloop]
            exact ⟨fun e he => by simp at he, fun hf => by simp at hf⟩

/-- Witness for C2 amended: a name absent from the catalog raises with no
file left behind (none existed); the zero-byte timeout returns False with
an empty file present. -/
theorem c2_witness :
    (readPartition noToolEnv "missing" false [] []).fileExists = false ∧
    ((readPartition noToolEnv "boot" false [] [RecvEvent.timeout]).fileExists = true ∧
     (readPartition noToolEnv "boot" false [] [RecvEvent.timeout]).fileBytes = []) :=
  ⟨(c2_amended_read_cleanup noToolEnv "missing" []).1 Err.notFound (by decide),
   (c2_amended_read_cleanup noToolEnv "boot" [RecvEvent.timeout]).2 (by decide)⟩

/-- C4: after the tool path has failed and the force gate passed, a write
that has streamed every chunk and the completion packet treats a timed-out
acknowledgment read optimistically and reports success, whereas erase
treats a timed-out completion read (within its 60-second-class timeout) as
failure; this holds for every partition name and nonempty input. -/
theorem c4_ack_timeout_asymmetry (env : BridgeEnv) (name : String)
    (fileBytes : Bytes) (hav : env.tool.available = false)
    (hest : env.established = true) (hsend : env.sendsOk = true)
    (hne : fileBytes ≠ []) :
    (writePartition env name (some fileBytes) true RecvEvent.timeout).1
        = Except.ok true ∧
    Action.write (encodePacket FILE_COMPLETE [])
        ∈ (writePartition env name (some fileBytes) true RecvEvent.timeout).2 ∧
    (erasePartition env name true RecvEvent.timeout).1 = Except.ok false := by
  have htool : callHeimdall env.tool ["flash", name] = (false, []) := by
    simp [callHeimdall, hav]
  have htool2 : callHeimdall env.tool ["erase", name] = (false, []) := by
    simp [callHeimdall, hav]
  have hsess : ensureSession env = Except.ok () := by simp [ensureSession, hest]
  have htr : sessionTrace env = [] := by simp [sessionTrace, hest]
  have hlen : ¬ (fileBytes.length = 0) := by
    simpa [List.length_eq_zero] using hne
  refine ⟨?_, ?_, ?_⟩
  · simp [writePartition, htool, hlen, hsess, hsend]
  · simp [writePartition, htool, hlen, hsess, hsend, htr, writeSends]
  · simp [erasePartition, htool2, hsess, hsend]

/-- Witness for C4: on the toolless environment, a timed-out write ack
reports success and a timed-out erase completion reports failure. -/
theorem c4_witness :
    (writePartition noToolEnv "boot" (some [1, 2, 3]) true RecvEvent.timeout).1
        = Except.ok true ∧
    (erasePartition noToolEnv "boot" true RecvEvent.timeout).1 = Except.ok false :=
  ⟨(c4_ack_timeout_asymmetry noToolEnv "boot" [1, 2, 3] rfl rfl rfl (by decide)).1,
   (c4_ack_timeout_asymmetry noToolEnv "boot" [1, 2, 3] rfl rfl rfl (by decide)).2.2⟩

/-- C1: with the external tool unavailable or failing and force unset,
`write_partition` raises the safety-gate error (spec: SafetyGateError)
with no raw-protocol traffic in its trace — no packet and no handshake
write is ever attempted; and `erase_partition` with force unset raises its
safety-gate error before anything at all happens: its trace is empty, so
neither a tool invocation nor any raw-protocol traffic occurs, whatever
the tool's availability. -/
theorem c1_force_gates (env : BridgeEnv) (name : String) (input : Option Bytes)
    (ack : RecvEvent)
    (h : env.tool.available = false ∨ env.tool.succeeds = false) :
    ((writePartition env name input false ack).1 = Except.error Err.safetyGateWrite ∧
     (writePartition env name input false ack).2.all notWriteAction = true) ∧
    (∀ (env2 : BridgeEnv) (name2 : String) (ack2 : RecvEvent),
        erasePartition env2 name2 false ack2 = (Except.error Err.safetyGateErase, [])) := by
  constructor
  · have htool1 : (callHeimdall env.tool ["flash", name]).1 = false := by
      rcases h with h | h
      · simp [callHeimdall, h]
      · cases ha : env.tool.available <;> simp [callHeimdall, h, ha]
    constructor
    · simp [writePartition, htool1]
    · simp only [writePartition, htool1, Bool.false_eq_true, if_false]
      cases ha : env.tool.available <;> simp [callHeimdall, ha, notWriteAction]
  · intro env2 name2 ack2
    rfl

/-- Witness for C1: on the toolless environment, write without force
raises the write safety gate and erase without force raises the erase
safety gate with an empty trace. -/
theorem c1_witness :
    (writePartition noToolEnv "boot" (some [1]) false RecvEvent.timeout).1
        = Except.error Err.safetyGateWrite ∧
    erasePartition noToolEnv "boot" false RecvEvent.timeout
        = (Except.error Err.safetyGateErase, []) :=
  ⟨(c1_force_gates noToolEnv "boot" (some [1]) RecvEvent.timeout (Or.inl rfl)).1.1,
   (c1_force_gates noToolEnv "boot" (some [1]) RecvEvent.timeout (Or.inl rfl)).2
      noToolEnv "boot" RecvEvent.timeout⟩

/-- C9 counterexample: after `disconnect` on a connected session, the
partition catalog is unchanged and nonempty, refuting the claim that the
catalog entries built during the session are discarded on disconnect:
the source clears only the transport fields and never touches
`partition_manager.partitions`. -/
theorem c9_counterexample :
    (disconnect anyDEnv connectedState).partitions = demoCatalog ∧
    demoCatalog ≠ [] := by
  exact ⟨rfl, by decide⟩

/-- C9 amended: `disconnect` never raises (it is total, every fallible
step being swallowed), is idempotent, is insensitive to which fallible
steps fail, clears every session field — device handle, interface,
endpoints, kernel-driver-detached flag, session-established flag — and
works on a never-connected state; the partition catalog, however, is
retained rather than discarded. -/
theorem c9_amended_disconnect (env env2 : DisconnectEnv) (s : BState) :
    disconnect env2 (disconnect env s) = disconnect env s ∧
    (disconnect env s).dev = false ∧
    (disconnect env s).interface = none ∧
    (disconnect env s).inEp = none ∧
    (disconnect env s).outEp = none ∧
    (disconnect env s).detachedKernel = false ∧
    (disconnect env s).sessionEstablished = false ∧
    (disconnect env s).partitions = s.partitions ∧
    disconnect env2 s = disconnect env s :=
  ⟨rfl, rfl, rfl, rfl, rfl, rfl, rfl, rfl, rfl⟩

end XynClient
